import Mathlib

/-!
Verification of the progressive-compute hook and its cache engine
(`useProgressiveCompute.ts`, `cacheManager` in `cache.ts`,
`errorRecoveryStrategy.ts`, `interruptHandler`, cache constants).

The TypeScript sources are shallowly embedded: machine floats that only
ever hold small integers are modelled as `Nat`/`Int`, the JS float
expressions `Math.round`/`Math.floor` over ratios are modelled over `ℚ`
(exact at every concrete input used below, which keeps the embedding
faithful there), and the 32-bit signed wraparound of the DJB2 hash is
modelled explicitly on `Int`.
-/

/-! ## Scheduler generator (`createGenerator` in useProgressiveCompute.ts) -/

/-- State of the compute generator `createGenerator`: the `for`-loop index
`i` and the accumulated `results` array. -/
structure GenState (R : Type) where
  i : Nat
  results : List R
  deriving Repr, DecidableEq

/-- One iteration of the loop body of `createGenerator`.  When
`i < data.length`: a paused iteration yields `{type: "pause"}` and rolls the
index back (`i -= batchSize; continue`, after which the loop adds
`batchSize` again), so the generator state is unchanged; an unpaused
iteration maps `transformFn` over `data.slice(i, i + batchSize)`, appends
the transformed chunk to `results`, and advances `i` by `batchSize`. -/
def genStep {T R : Type} (f : T → R) (batchSize : Nat) (data : List T)
    (paused : Bool) (s : GenState R) : GenState R :=
  if s.i < data.length then
    if paused then s
    else { i := s.i + batchSize,
           results := s.results ++ ((data.drop s.i).take batchSize).map f }
  else s

/-- Run the generator through an explicit pause schedule: each entry says
whether `isPausedRef.current` was set (via `pause()`) when that iteration of
the loop ran.  A `resume()` corresponds to the next `false` entry. -/
def runSchedule {T R : Type} (f : T → R) (batchSize : Nat) (data : List T)
    (sched : List Bool) (s : GenState R) : GenState R :=
  sched.foldl (fun st p => genStep f batchSize data p st) s

/-- Drive the generator to completion with no further pauses.  The fuel
bounds the number of loop iterations; `data.length` iterations always
suffice when `batchSize ≥ 1`. -/
def runToEnd {T R : Type} (f : T → R) (batchSize : Nat) (data : List T) :
    Nat → GenState R → GenState R
  | 0, s => s
  | fuel + 1, s =>
    if s.i < data.length then
      runToEnd f batchSize data fuel (genStep f batchSize data false s)
    else s

/-- The generator's initial state. -/
def initState {R : Type} : GenState R := { i := 0, results := [] }

/-- Final result array of an uninterrupted `start()` run: the value returned
by the generator when `done`, which `executeStep` installs via
`setResult(genResult.value)`. -/
def uninterruptedRun {T R : Type} (f : T → R) (batchSize : Nat)
    (data : List T) : List R :=
  (runToEnd f batchSize data data.length initState).results

/-- Final result array of a run that was paused/resumed according to
`sched` mid-run and then allowed to finish. -/
def interruptedRun {T R : Type} (f : T → R) (batchSize : Nat)
    (data : List T) (sched : List Bool) : List R :=
  (runToEnd f batchSize data data.length
    (runSchedule f batchSize data sched initState)).results

/-- Loop invariant of the generator: the results accumulated so far are
exactly the transform mapped over the prefix of `data` already consumed. -/
def genInv {T R : Type} (f : T → R) (data : List T) (s : GenState R) : Prop :=
  s.results = (data.take s.i).map f

theorem genStep_inv {T R : Type} (f : T → R) (batchSize : Nat)
    (data : List T) (paused : Bool) (s : GenState R)
    (h : genInv f data s) : genInv f data (genStep f batchSize data paused s) := by
  unfold genStep genInv
  split
  · split
    · exact h
    · simp only [genInv] at h
      simp [h, List.take_add, List.map_append]
  · exact h

theorem runSchedule_inv {T R : Type} (f : T → R) (batchSize : Nat)
    (data : List T) (sched : List Bool) (s : GenState R)
    (h : genInv f data s) : genInv f data (runSchedule f batchSize data sched s) := by
  induction sched generalizing s with
  | nil => exact h
  | cons p rest ih =>
    exact ih _ (genStep_inv f batchSize data p s h)

theorem runToEnd_results {T R : Type} (f : T → R) (batchSize : Nat)
    (data : List T) (hbs : 0 < batchSize) :
    ∀ (fuel : Nat) (s : GenState R), data.length - s.i ≤ fuel →
      genInv f data s → (runToEnd f batchSize data fuel s).results = data.map f := by
  intro fuel
  induction fuel with
  | zero =>
    intro s hfuel hinv
    have hle : data.length ≤ s.i := by omega
    simp only [runToEnd, genInv] at *
    rw [hinv, List.take_of_length_le hle]
  | succ n ih =>
    intro s hfuel hinv
    simp only [runToEnd]
    split
    · rename_i hlt
      apply ih
      · have hstep : (genStep f batchSize data false s).i = s.i + batchSize := by
          simp [genStep, hlt]
        rw [hstep]; omega
      · exact genStep_inv f batchSize data false s hinv
    · rename_i hge
      have hle : data.length ≤ s.i := by omega
      simp only [genInv] at hinv
      rw [hinv, List.take_of_length_le hle]

/-- Claim C1: for every input array, transform function and positive batch size, a
run that is paused and resumed according to any schedule produces the same
final result array (same elements, same order) as an uninterrupted run of
`start()` on the same input and transform. -/
theorem pause_resume_same_final_result {T R : Type}
    (data : List T) (f : T → R) (batchSize : Nat) (hbs : 0 < batchSize)
    (sched : List Bool) :
    interruptedRun f batchSize data sched = uninterruptedRun f batchSize data := by
  unfold interruptedRun uninterruptedRun
  rw [runToEnd_results f batchSize data hbs data.length _ (by omega)
        (runSchedule_inv f batchSize data sched initState (by simp [genInv, initState])),
      runToEnd_results f batchSize data hbs data.length _ (by omega)
        (by simp [genInv, initState])]

/-- Witness for C1 at a concrete input: 5 items, batch size 2, with a pause
held over two loop iterations mid-run. -/
theorem pause_resume_same_final_result_witness :
    0 < 2 ∧ interruptedRun (fun n => n * 2) 2 [1, 2, 3, 4, 5] [false, true, true, false]
      = uninterruptedRun (fun n => n * 2) 2 [1, 2, 3, 4, 5] :=
  ⟨by decide, pause_resume_same_final_result [1, 2, 3, 4, 5] (fun n => n * 2) 2 (by decide)
      [false, true, true, false]⟩

/-! ## Progress reporting and batch indexing (`createGenerator` / `executeStep`) -/

/-- JS `Math.round` on an exact rational: round half toward positive
infinity, `⌊x + 1/2⌋`. -/
def jsRound (x : ℚ) : ℤ := ⌊x + 1 / 2⌋

/-- Progress reported after a batch, from `createGenerator`:
`Math.min(100, Math.round(((i + chunk.length) / data.length) * 100))`
with `processedItems = i + chunk.length` and `totalItems = data.length`. -/
def progressAt (totalItems processedItems : Nat) : ℤ :=
  min 100 (jsRound ((processedItems : ℚ) / (totalItems : ℚ) * 100))

/-- `Math.ceil(data.length / batchSize)` from `executeStep`. -/
def numBatches (totalItems batchSize : Nat) : ℤ :=
  ⌈(totalItems : ℚ) / (batchSize : ℚ)⌉

/-- Batch index computed in `executeStep` before forwarding a batch to
`storeBatch`:
`Math.floor((prog ?? 0) / (100 / Math.ceil(data.length / batchSize)))`. -/
def batchIndexAt (totalItems batchSize processedItems : Nat) : ℤ :=
  ⌊(progressAt totalItems processedItems : ℚ)
      / (100 / (numBatches totalItems batchSize : ℚ))⌋

/-- Claim C6 counterexample: the code computes progress with `Math.round`, not
`floor`.  With 3 items and batch size 2, after the first batch (2 of 3 items
processed) the code reports `min(100, round(200/3)) = 67`, while the claimed
formula gives `⌊min(100, 200/3)⌋ = 66`.  Moreover with 1000 items and batch
size 999, after 999 of 1000 items the code already reports 100, so progress
does not reach 100 "exactly when" all items are processed. -/
theorem progress_formula_counterexample :
    progressAt 3 2 = 67 ∧ ⌊min 100 ((2 : ℚ) / 3 * 100)⌋ = 66 ∧ (67 : ℤ) ≠ 66 ∧
    progressAt 1000 999 = 100 ∧ 999 ≠ 1000 := by
  refine ⟨?_, ?_, by decide, ?_, by decide⟩ <;>
    norm_num [progressAt, jsRound]

/-- Claim C6 amended: after each processed batch the reported progress equals
`min(100, round(processedItems/totalItems×100))` with JS `Math.round`
(half-up) instead of `floor`; it is an integer, is between 0 and 100, and
equals 100 when all items are processed (it can also already be 100 just
before completion, see the counterexample). -/
theorem progress_min_round_bounded (totalItems processedItems : Nat)
    (ht : 0 < totalItems) (hp : processedItems ≤ totalItems) :
    0 ≤ progressAt totalItems processedItems ∧
    progressAt totalItems processedItems ≤ 100 ∧
    progressAt totalItems totalItems = 100 := by
  refine ⟨?_, min_le_left _ _, ?_⟩
  · apply le_min (by norm_num)
    apply Int.le_floor.mpr
    have h0 : (0 : ℚ) ≤ (processedItems : ℚ) / (totalItems : ℚ) * 100 := by
      positivity
    push_cast
    linarith
  · have htq : (totalItems : ℚ) ≠ 0 := by
      exact_mod_cast Nat.pos_iff_ne_zero.mp ht
    simp only [progressAt, jsRound, div_self htq, one_mul]
    norm_num

/-- Witness for the C6 amended theorem at 3 items, 2 processed. -/
theorem progress_min_round_bounded_witness :
    0 < 3 ∧ 2 ≤ 3 ∧
      (0 ≤ progressAt 3 2 ∧ progressAt 3 2 ≤ 100 ∧ progressAt 3 3 = 100) :=
  ⟨by decide, by decide, progress_min_round_bounded 3 2 (by decide) (by decide)⟩

/-- Claim C4 counterexample: with 200 items and batch size 1, the first processed
batch (1 item processed) is forwarded to `storeBatch` with index 2 (not 0),
and the second batch (2 items processed) also gets index 2, so two distinct
batches of the run share an index. -/
theorem batch_index_counterexample :
    batchIndexAt 200 1 1 = 2 ∧ batchIndexAt 200 1 2 = 2 ∧ (2 : ℤ) ≠ 0 := by
  refine ⟨?_, ?_, by decide⟩ <;>
    norm_num [progressAt, jsRound, batchIndexAt, numBatches]

theorem progress_monotone (totalItems p q : Nat) (ht : 0 < totalItems)
    (hpq : p ≤ q) : progressAt totalItems p ≤ progressAt totalItems q := by
  unfold progressAt jsRound
  apply min_le_min le_rfl
  apply Int.floor_le_floor
  have htq : (0 : ℚ) < (totalItems : ℚ) := by exact_mod_cast ht
  have hmul : (p : ℚ) / (totalItems : ℚ) * 100 ≤ (q : ℚ) / (totalItems : ℚ) * 100 := by
    apply mul_le_mul_of_nonneg_right _ (by norm_num)
    exact (div_le_div_iff_of_pos_right htq).mpr (by exact_mod_cast hpq)
  linarith

/-- Claim C4 amended: the scheduler derives each batch's index from the reported
progress as `⌊progress / (100 / ⌈totalItems/batchSize⌉)⌋`.  Along a run the
indices are monotone non-decreasing in the number of processed items, but
they need not start at 0 and two distinct batches can receive the same index
(see the counterexample). -/
theorem batch_index_monotone (totalItems batchSize p q : Nat)
    (ht : 0 < totalItems) (hbs : 0 < batchSize) (hpq : p ≤ q) :
    batchIndexAt totalItems batchSize p ≤ batchIndexAt totalItems batchSize q := by
  unfold batchIndexAt
  apply Int.floor_le_floor
  have hnbz : (0 : ℤ) < numBatches totalItems batchSize := by
    unfold numBatches
    apply Int.ceil_pos.mpr
    apply div_pos <;> exact_mod_cast (by assumption : 0 < _)
  have hnb : (0 : ℚ) < (numBatches totalItems batchSize : ℚ) := by
    exact_mod_cast hnbz
  have hdenom : (0 : ℚ) < 100 / (numBatches totalItems batchSize : ℚ) := by
    positivity
  apply (div_le_div_iff_of_pos_right hdenom).mpr
  exact_mod_cast progress_monotone totalItems p q ht hpq

/-- Witness for the C4 amended theorem: 200 items, batch size 1, comparing
the indices after 1 and after 2 processed items. -/
theorem batch_index_monotone_witness :
    0 < 200 ∧ 0 < 1 ∧ 1 ≤ 2 ∧ batchIndexAt 200 1 1 ≤ batchIndexAt 200 1 2 :=
  ⟨by decide, by decide, by decide,
    batch_index_monotone 200 1 1 2 (by decide) (by decide) (by decide)⟩

/-! ## Cache key generation (`CacheManagerImpl.generateKey` in cache.ts)

Items are instantiated at `Nat` (JS numbers holding small integers), and the
transform function is represented by its source text, which is all
`generateKey` ever inspects (`transformFn.toString()`).  Strings are ASCII
here, so `Char.toNat` coincides with JS `charCodeAt`. -/

/-- Cache schema version constant `CACHE_VERSION` from constants/cache. -/
def CACHE_VERSION : String := "1.0.0"

/-- JS `ToInt32`: wrap an integer into the signed 32-bit range. -/
def toInt32 (n : Int) : Int := (n + 2 ^ 31) % 2 ^ 32 - 2 ^ 31

/-- One step of `createHash`: `hash = (hash << 5) + hash + char; hash = hash & hash`.
`hash << 5` wraps to 32 bits, the sum is exact in a float64, and `hash & hash`
truncates back to a signed 32-bit integer. -/
def hashStep (h : Int) (c : Nat) : Int := toInt32 (toInt32 (h * 32) + h + c)

/-- Digit used by JS `Number.prototype.toString(36)`. -/
def base36Digit (d : Nat) : Char :=
  if d < 10 then Char.ofNat (48 + d) else Char.ofNat (87 + d)

/-- Base-36 digits of `n`, most significant first (`fuel ≥ n` suffices). -/
def toBase36Aux : Nat → Nat → List Char
  | 0, _ => []
  | fuel + 1, n =>
    if n = 0 then [] else toBase36Aux fuel (n / 36) ++ [base36Digit (n % 36)]

/-- JS `n.toString(36)` for a natural number. -/
def toBase36 (n : Nat) : String :=
  if n = 0 then "0" else String.mk (toBase36Aux n n)

/-- Model of `CacheManagerImpl.createHash`: DJB2-style rolling hash with
seed 5381 over the UTF-16 code units, kept in signed 32-bit arithmetic, then
rendered as `Math.abs(hash).toString(36)`. -/
def createHash (data : String) : String :=
  if data.length = 0 then toBase36 (5381 : Int).natAbs
  else toBase36 (data.toList.foldl (fun h c => hashStep h c.toNat) 5381).natAbs

/-- JS `JSON.stringify` of an array of (integer) numbers. -/
def jsonNatList (l : List Nat) : String :=
  "[" ++ String.intercalate "," (l.map (fun n => toString n)) ++ "]"

/-- Model of `CacheManagerImpl.createOptimizedDataHash`: hash everything for
at most 1000 items, otherwise hash the length together with a stratified
sample (first, middle and last element plus every `step`-th element, where
`sampleSize = Math.min(100, Math.ceil(length * 0.01))` — written below in
exact `Nat` arithmetic as `(length + 99) / 100`, which agrees with the float
expression away from exact multiples of 100 such as the 1001-item inputs
used here — and `step = Math.floor(length / sampleSize)`). -/
def createOptimizedDataHash (data : List Nat) : String :=
  if data.length = 0 then "empty"
  else if data.length ≤ 1000 then createHash (jsonNatList data)
  else
    let sampleSize := min 100 ((data.length + 99) / 100)
    let step := data.length / sampleSize
    let samples := ((List.range data.length).filter (fun i => i % step = 0)).map
      (fun i => data.getD i 0)
    let keyElements := [data.getD 0 0, data.getD (data.length / 2) 0,
      data.getD (data.length - 1) 0] ++ samples
    createHash (toString data.length ++ "_" ++ jsonNatList keyElements)

/-- JS `String.prototype.includes` for a non-empty pattern. -/
def containsSub (s pat : String) : Bool := (s.splitOn pat).length ≠ 1

/-- JSON string escaping for a quote or backslash character (control
characters do not occur in the transform sources considered here). -/
def jsonEscapeChar (c : Char) : String :=
  if c = '"' then "\\\"" else if c = '\\' then "\\\\" else String.singleton c

/-- JSON string literal. -/
def jsonString (s : String) : String :=
  "\"" ++ String.join (s.toList.map jsonEscapeChar) ++ "\""

/-- JSON boolean literal. -/
def jsonBool (b : Bool) : String := if b then "true" else "false"

/-- Model of `CacheManagerImpl.createOptimizedFunctionHash`: hash the
`JSON.stringify` of the extracted characteristics object (property order as
inserted in the source). -/
def createOptimizedFunctionHash (fnString : String) : String :=
  let firstChars := String.mk (fnString.toList.take 50)
  let lastChars := String.mk (fnString.toList.drop (fnString.length - 50))
  createHash ("\x7b\"length\":" ++ toString fnString.length
    ++ ",\"hasReturn\":" ++ jsonBool (containsSub fnString "return")
    ++ ",\"hasArrow\":" ++ jsonBool (containsSub fnString "=>")
    ++ ",\"hasAsync\":" ++ jsonBool (containsSub fnString "async")
    ++ ",\"hasAwait\":" ++ jsonBool (containsSub fnString "await")
    ++ ",\"firstChars\":" ++ jsonString firstChars
    ++ ",\"lastChars\":" ++ jsonString lastChars ++ "\x7d")

/-- Per-instance memo `keyCache` of `CacheManagerImpl` (a `Map` capped at
1000 entries). -/
structure KeyGenState where
  keyCache : List (String × String)
  deriving Repr, DecidableEq

/-- First-match association lookup (JS `Map.get`; keys are unique because
entries are only added after a failed lookup). -/
def lookupKeyCache : List (String × String) → String → Option String
  | [], _ => none
  | (k, v) :: rest, q => if k = q then some v else lookupKeyCache rest q

/-- Model of `CacheManagerImpl.generateKey`: memoised by the quick id
`length_fnTextLength`; on a miss the key
`CACHE_VERSION_dataHash_fnHash` is computed and stored while the memo holds
fewer than 1000 entries. -/
def generateKey (st : KeyGenState) (data : List Nat) (fnString : String) :
    String × KeyGenState :=
  let quickId := toString data.length ++ "_" ++ toString fnString.length
  match lookupKeyCache st.keyCache quickId with
  | some k => (k, st)
  | none =>
    let key := CACHE_VERSION ++ "_" ++ createOptimizedDataHash data ++ "_"
      ++ createOptimizedFunctionHash fnString
    if st.keyCache.length < 1000 then
      (key, ⟨st.keyCache ++ [(quickId, key)]⟩)
    else (key, st)

/-- Concrete collection of 1001 items for the key-generation claims. -/
def dataBase : List Nat := List.replicate 1001 0

/-- Same collection with the first element altered. -/
def dataFirstAltered : List Nat := 1 :: List.replicate 1000 0

/-- Same collection with the middle element (index 500) altered. -/
def dataMiddleAltered : List Nat :=
  List.replicate 500 0 ++ 1 :: List.replicate 500 0

/-- Same collection with the last element altered. -/
def dataLastAltered : List Nat := List.replicate 1000 0 ++ [1]

/-- Source text of the transform of the concrete scenario. -/
def fnSource : String := "(item) => item * 2"

theorem lookupKeyCache_append (l : List (String × String)) (q v : String)
    (h : lookupKeyCache l q = none) :
    lookupKeyCache (l ++ [(q, v)]) q = some v := by
  induction l with
  | nil => simp [lookupKeyCache]
  | cons p rest ih =>
    obtain ⟨k, w⟩ := p
    simp only [lookupKeyCache] at h
    simp only [List.cons_append, lookupKeyCache]
    split at h
    · exact absurd h (by simp)
    · rename_i hne
      rw [if_neg hne]
      exact ih h

theorem generateKey_deterministic (st : KeyGenState) (data : List Nat)
    (fnString : String) :
    (generateKey (generateKey st data fnString).2 data fnString).1
      = (generateKey st data fnString).1 := by
  unfold generateKey
  cases hq : lookupKeyCache st.keyCache
      (toString data.length ++ "_" ++ toString fnString.length) with
  | some k => simp [hq]
  | none =>
    by_cases hlen : st.keyCache.length < 1000
    · simp [hq, hlen, lookupKeyCache_append _ _ _ hq]
    · simp [hq, hlen]

set_option maxRecDepth 10000 in
/-- Claim C3 counterexample: `generateKey` memoises its result by the quick
id `(collection length, transform text length)`.  On the same
`CacheManager` instance, after a call on the base 1001-item collection, the
call on the collection with its first element altered (same length) returns
the memoised key of the original collection — altering the first element
does not change the key returned. -/
theorem generateKey_memo_counterexample :
    dataFirstAltered ≠ dataBase ∧
    (generateKey (generateKey ⟨[]⟩ dataBase fnSource).2 dataFirstAltered fnSource).1
      = (generateKey ⟨[]⟩ dataBase fnSource).1 :=
  ⟨by decide, by rfl⟩

set_option maxRecDepth 40000 in
/-- Claim C3 amended: `generateKey` is deterministic for identical inputs
(calling it again on the same instance with the same collection and
transform returns the same key).  Because keys are memoised by
`(collection length, transform text length)`, altering an element of a
same-length collection on the same instance returns the stale memoised key;
only on a fresh instance (empty memo) does altering the first, the middle,
or the last element of this >1000-item collection change the key. -/
theorem generateKey_deterministic_and_fresh_boundary_sensitive :
    (∀ (st : KeyGenState) (data : List Nat) (fnString : String),
      (generateKey (generateKey st data fnString).2 data fnString).1
        = (generateKey st data fnString).1) ∧
    (generateKey ⟨[]⟩ dataFirstAltered fnSource).1 ≠ (generateKey ⟨[]⟩ dataBase fnSource).1 ∧
    (generateKey ⟨[]⟩ dataMiddleAltered fnSource).1 ≠ (generateKey ⟨[]⟩ dataBase fnSource).1 ∧
    (generateKey ⟨[]⟩ dataLastAltered fnSource).1 ≠ (generateKey ⟨[]⟩ dataBase fnSource).1 :=
  ⟨generateKey_deterministic, by decide, by decide, by decide⟩

/-! ## Batch storage and combination (`flushBatchQueue` / `combineBatchData`) -/

/-- Persisted batch record `CacheBatch` from types/cache. -/
structure CacheBatchM (R : Type) where
  index : Nat
  data : List R
  timestamp : Nat
  size : Nat
  deriving Repr, DecidableEq

/-- Upsert step of `flushBatchQueue`: `findIndex` on the batch index, then
replace in place when found, else push at the end. -/
def upsertBatch {R : Type} : List (CacheBatchM R) → CacheBatchM R → List (CacheBatchM R)
  | [], b => [b]
  | x :: xs, b => if x.index = b.index then b :: xs else x :: upsertBatch xs b

/-- Comparison used by `batches.sort((a, b) => a.index - b.index)`. -/
def batchLE {R : Type} (a b : CacheBatchM R) : Prop := a.index ≤ b.index

instance {R : Type} : DecidableRel (batchLE (R := R)) :=
  fun a b => inferInstanceAs (Decidable (a.index ≤ b.index))

instance {R : Type} : IsTotal (CacheBatchM R) batchLE :=
  ⟨fun a b => Nat.le_total a.index b.index⟩

instance {R : Type} : IsTrans (CacheBatchM R) batchLE :=
  ⟨fun _ _ _ h h' => Nat.le_trans h h'⟩

/-- Stable ascending sort by batch index, modelling the JS
`Array.prototype.sort` call in `flushBatchQueue`/`combineBatchData`. -/
def sortBatches {R : Type} (l : List (CacheBatchM R)) : List (CacheBatchM R) :=
  List.insertionSort batchLE l

/-- Model of `CacheManagerImpl.combineBatchData`: sort a copy of the batches
ascending by index and concatenate their data. -/
def combineBatchData {R : Type} (batches : List (CacheBatchM R)) : List R :=
  ((sortBatches batches).map (fun b => b.data)).flatten

theorem sortBatches_eq_of_perm {R : Type} {l₁ l₂ : List (CacheBatchM R)}
    (hperm : l₁.Perm l₂)
    (hnodup : (l₁.map (fun b => b.index)).Nodup) :
    sortBatches l₁ = sortBatches l₂ := by
  haveI : IsAntisymm (CacheBatchM R) (fun a b => a.index < b.index) :=
    ⟨fun a b h h' => absurd (lt_trans h h') (lt_irrefl _)⟩
  have hsymm : Symmetric (fun a b : CacheBatchM R => a.index ≠ b.index) :=
    fun _ _ h => Ne.symm h
  have hne₁ : l₁.Pairwise (fun a b => a.index ≠ b.index) :=
    List.pairwise_map.mp hnodup
  have hne₂ : l₂.Pairwise (fun a b => a.index ≠ b.index) :=
    (hperm.pairwise_iff (fun h => hsymm h)).mp hne₁
  apply List.eq_of_perm_of_sorted (r := fun a b => a.index < b.index)
  · exact (List.perm_insertionSort _ l₁).trans
      (hperm.trans (List.perm_insertionSort _ l₂).symm)
  · have hs : (sortBatches l₁).Sorted batchLE := List.sorted_insertionSort _ l₁
    have hne : (sortBatches l₁).Pairwise (fun a b => a.index ≠ b.index) :=
      ((List.perm_insertionSort _ l₁).pairwise_iff (fun h => hsymm h)).mpr hne₁
    exact (hs.and hne).imp (fun h => lt_of_le_of_ne h.1 h.2)
  · have hs : (sortBatches l₂).Sorted batchLE := List.sorted_insertionSort _ l₂
    have hne : (sortBatches l₂).Pairwise (fun a b => a.index ≠ b.index) :=
      ((List.perm_insertionSort _ l₂).pairwise_iff (fun h => hsymm h)).mpr hne₂
    exact (hs.and hne).imp (fun h => lt_of_le_of_ne h.1 h.2)

theorem upsertBatch_eq_map {R : Type} (entry : List (CacheBatchM R))
    (b : CacheBatchM R)
    (hnodup : (entry.map (fun x => x.index)).Nodup)
    (hmem : b.index ∈ entry.map (fun x => x.index)) :
    upsertBatch entry b = entry.map (fun x => if x.index = b.index then b else x) := by
  induction entry with
  | nil => simp at hmem
  | cons x xs ih =>
    simp only [List.map_cons, List.nodup_cons] at hnodup
    by_cases hx : x.index = b.index
    · simp only [upsertBatch, hx, if_pos, List.map_cons, if_true]
      have hxs : ∀ y ∈ xs, (if y.index = b.index then b else y) = y := by
        intro y hy
        have : y.index ≠ b.index := by
          intro hcontra
          exact hnodup.1 (hx ▸ hcontra ▸ List.mem_map_of_mem (fun z => z.index) hy)
        simp [this]
      rw [List.map_congr_left hxs]
      simp
    · have hmem' : b.index ∈ xs.map (fun x => x.index) := by
        simp only [List.map_cons, List.mem_cons] at hmem
        rcases hmem with h | h
        · exact absurd h.symm hx
        · exact h
      simp only [upsertBatch, hx, if_false, List.map_cons, if_neg hx]
      rw [ih hnodup.2 hmem']

/-- Claim C5: combining the batches of a cache entry concatenates their data
in ascending index order regardless of arrival/storage order: batches
arriving in order [index 2, index 0, index 1] combine to batch 0's data,
then batch 1's, then batch 2's; any two storage orders of the same batches
with distinct indices combine identically; and upserting a batch whose index
is already present (a re-flushed duplicate index) replaces that batch in
place instead of duplicating it, keeping the batch count. -/
theorem combine_ascending_and_duplicate_replaces {R : Type}
    (b0 b1 b2 : CacheBatchM R)
    (h0 : b0.index = 0) (h1 : b1.index = 1) (h2 : b2.index = 2)
    (l₁ l₂ : List (CacheBatchM R)) (hperm : l₁.Perm l₂)
    (hnodup : (l₁.map (fun b => b.index)).Nodup)
    (entry : List (CacheBatchM R)) (b : CacheBatchM R)
    (hnodupE : (entry.map (fun x => x.index)).Nodup)
    (hmem : b.index ∈ entry.map (fun x => x.index)) :
    combineBatchData [b2, b0, b1] = b0.data ++ b1.data ++ b2.data ∧
    combineBatchData l₁ = combineBatchData l₂ ∧
    upsertBatch entry b = entry.map (fun x => if x.index = b.index then b else x) ∧
    (upsertBatch entry b).length = entry.length := by
  refine ⟨?_, ?_, upsertBatch_eq_map entry b hnodupE hmem, ?_⟩
  · simp [combineBatchData, sortBatches, List.insertionSort, List.orderedInsert,
      batchLE, h0, h1, h2]
  · unfold combineBatchData
    rw [sortBatches_eq_of_perm hperm hnodup]
  · rw [upsertBatch_eq_map entry b hnodupE hmem, List.length_map]

/-- Witness for C5 at concrete batches: indices 0, 1, 2 with one-element
data arrays, storage orders [2,0,1] versus [0,1,2], and a duplicate upsert
of index 1 into an entry holding indices 0 and 1. -/
theorem combine_ascending_and_duplicate_replaces_witness :
    ((⟨0, [10], 0, 0⟩ : CacheBatchM Nat).index = 0) ∧
    ((⟨1, [11], 0, 0⟩ : CacheBatchM Nat).index = 1) ∧
    ((⟨2, [12], 0, 0⟩ : CacheBatchM Nat).index = 2) ∧
    ([⟨2, [12], 0, 0⟩, ⟨0, [10], 0, 0⟩, ⟨1, [11], 0, 0⟩] : List (CacheBatchM Nat)).Perm
      [⟨0, [10], 0, 0⟩, ⟨1, [11], 0, 0⟩, ⟨2, [12], 0, 0⟩] ∧
    (combineBatchData [(⟨2, [12], 0, 0⟩ : CacheBatchM Nat), ⟨0, [10], 0, 0⟩, ⟨1, [11], 0, 0⟩]
        = [10] ++ [11] ++ [12] ∧
      combineBatchData [(⟨2, [12], 0, 0⟩ : CacheBatchM Nat), ⟨0, [10], 0, 0⟩, ⟨1, [11], 0, 0⟩]
        = combineBatchData [⟨0, [10], 0, 0⟩, ⟨1, [11], 0, 0⟩, ⟨2, [12], 0, 0⟩] ∧
      upsertBatch [(⟨0, [10], 0, 0⟩ : CacheBatchM Nat), ⟨1, [11], 0, 0⟩] ⟨1, [99], 7, 3⟩
        = [⟨0, [10], 0, 0⟩, ⟨1, [99], 7, 3⟩] ∧
      (upsertBatch [(⟨0, [10], 0, 0⟩ : CacheBatchM Nat), ⟨1, [11], 0, 0⟩] ⟨1, [99], 7, 3⟩).length
        = 2) := by
  refine ⟨rfl, rfl, rfl, by decide, ?_⟩
  have h := combine_ascending_and_duplicate_replaces
    (⟨0, [10], 0, 0⟩ : CacheBatchM Nat) ⟨1, [11], 0, 0⟩ ⟨2, [12], 0, 0⟩
    rfl rfl rfl
    [⟨2, [12], 0, 0⟩, ⟨0, [10], 0, 0⟩, ⟨1, [11], 0, 0⟩]
    [⟨0, [10], 0, 0⟩, ⟨1, [11], 0, 0⟩, ⟨2, [12], 0, 0⟩]
    (by decide) (by decide)
    [⟨0, [10], 0, 0⟩, ⟨1, [11], 0, 0⟩] ⟨1, [99], 7, 3⟩
    (by decide) (by decide)
  exact ⟨h.1, h.2.1, by simpa using h.2.2.1, h.2.2.2⟩

/-! ## Size-based eviction (`cleanupOldEntriesIfNeeded` in cache.ts) -/

/-- Valid-entry record assembled by `analyzeEntriesForCleanup`
(key, `metadata.lastAccessed`, size estimate). -/
structure ValidEntryM where
  key : String
  lastAccessed : Nat
  size : Nat
  deriving Repr, DecidableEq

/-- Comparison used by `.sort((a, b) => a.lastAccessed - b.lastAccessed)`. -/
def entryLE (a b : ValidEntryM) : Prop := a.lastAccessed ≤ b.lastAccessed

instance : DecidableRel entryLE :=
  fun a b => inferInstanceAs (Decidable (a.lastAccessed ≤ b.lastAccessed))

instance : IsTotal ValidEntryM entryLE := ⟨fun a b => Nat.le_total _ _⟩

instance : IsTrans ValidEntryM entryLE := ⟨fun _ _ _ h h' => Nat.le_trans h h'⟩

/-- Model of `CacheManagerImpl.cleanupOldEntriesIfNeeded`: when the valid
entries exceed `maxSize`, sort ascending by `lastAccessed` and delete down
to `targetCount = Math.floor(maxSize * 0.75)` — written in exact `Nat`
arithmetic as `3 * maxSize / 4` (0.75 is an exact float, so
`maxSize * 0.75` is exact at these magnitudes).  Returns the pair
(deleted entries, surviving entries). -/
def cleanupOldEntriesIfNeeded (maxSize : Nat) (validEntries : List ValidEntryM) :
    List ValidEntryM × List ValidEntryM :=
  if validEntries.length ≤ maxSize then ([], validEntries)
  else
    let sortedEntries := List.insertionSort entryLE validEntries
    let targetCount := 3 * maxSize / 4
    let entriesToRemove := sortedEntries.length - targetCount
    (sortedEntries.take entriesToRemove, sortedEntries.drop entriesToRemove)

/-- Claim C8: when `cleanupExpired()` finds more valid entries than
`maxSize`, it evicts the entries with the oldest `lastAccessed` values down
to `⌊0.75 * maxSize⌋` survivors: every removed entry was last accessed no
later than every kept entry, `validEntries.length - ⌊0.75*maxSize⌋` entries
are removed, and `⌊0.75*maxSize⌋` remain (with `maxSize = 10` and 15 valid
entries: 8 removed, 7 left — see the witness). -/
theorem cleanup_evicts_oldest_down_to_75_percent (maxSize : Nat)
    (validEntries : List ValidEntryM) (h : maxSize < validEntries.length) :
    ((cleanupOldEntriesIfNeeded maxSize validEntries).2).length = 3 * maxSize / 4 ∧
    ((cleanupOldEntriesIfNeeded maxSize validEntries).1).length
      = validEntries.length - 3 * maxSize / 4 ∧
    ∀ r ∈ (cleanupOldEntriesIfNeeded maxSize validEntries).1,
      ∀ k ∈ (cleanupOldEntriesIfNeeded maxSize validEntries).2,
        r.lastAccessed ≤ k.lastAccessed := by
  have hlen : (List.insertionSort entryLE validEntries).length = validEntries.length :=
    (List.perm_insertionSort _ _).length_eq
  have htarget : 3 * maxSize / 4 ≤ maxSize := by omega
  have hpair : cleanupOldEntriesIfNeeded maxSize validEntries
      = ((List.insertionSort entryLE validEntries).take
          ((List.insertionSort entryLE validEntries).length - 3 * maxSize / 4),
        (List.insertionSort entryLE validEntries).drop
          ((List.insertionSort entryLE validEntries).length - 3 * maxSize / 4)) := by
    unfold cleanupOldEntriesIfNeeded
    rw [if_neg (by omega)]
  rw [hpair]
  refine ⟨?_, ?_, ?_⟩
  · simp only [List.length_drop, hlen]
    omega
  · simp only [List.length_take, hlen]
    omega
  · intro r hr k hk
    have hsorted : (List.insertionSort entryLE validEntries).Pairwise entryLE :=
      List.sorted_insertionSort _ _
    have hsplit := List.pairwise_append.mp
      (show ((List.insertionSort entryLE validEntries).take
          ((List.insertionSort entryLE validEntries).length - 3 * maxSize / 4) ++
        (List.insertionSort entryLE validEntries).drop
          ((List.insertionSort entryLE validEntries).length - 3 * maxSize / 4)).Pairwise
          entryLE from by rw [List.take_append_drop]; exact hsorted)
    exact hsplit.2.2 r hr k hk

/-- Witness for C8: `maxSize = 10` with 15 valid entries; the theorem gives
7 survivors and 8 evictions, the 8 being the least recently accessed. -/
theorem cleanup_evicts_oldest_down_to_75_percent_witness :
    10 < ([⟨"a", 1, 0⟩, ⟨"b", 12, 0⟩, ⟨"c", 3, 0⟩, ⟨"d", 14, 0⟩, ⟨"e", 5, 0⟩,
      ⟨"f", 10, 0⟩, ⟨"g", 7, 0⟩, ⟨"h", 8, 0⟩, ⟨"i", 9, 0⟩, ⟨"j", 6, 0⟩,
      ⟨"k", 11, 0⟩, ⟨"l", 2, 0⟩, ⟨"m", 13, 0⟩, ⟨"n", 4, 0⟩,
      ⟨"o", 15, 0⟩] : List ValidEntryM).length ∧
    (((cleanupOldEntriesIfNeeded 10 [⟨"a", 1, 0⟩, ⟨"b", 12, 0⟩, ⟨"c", 3, 0⟩,
        ⟨"d", 14, 0⟩, ⟨"e", 5, 0⟩, ⟨"f", 10, 0⟩, ⟨"g", 7, 0⟩, ⟨"h", 8, 0⟩,
        ⟨"i", 9, 0⟩, ⟨"j", 6, 0⟩, ⟨"k", 11, 0⟩, ⟨"l", 2, 0⟩, ⟨"m", 13, 0⟩,
        ⟨"n", 4, 0⟩, ⟨"o", 15, 0⟩]).2).length = 3 * 10 / 4 ∧
      ((cleanupOldEntriesIfNeeded 10 [⟨"a", 1, 0⟩, ⟨"b", 12, 0⟩, ⟨"c", 3, 0⟩,
        ⟨"d", 14, 0⟩, ⟨"e", 5, 0⟩, ⟨"f", 10, 0⟩, ⟨"g", 7, 0⟩, ⟨"h", 8, 0⟩,
        ⟨"i", 9, 0⟩, ⟨"j", 6, 0⟩, ⟨"k", 11, 0⟩, ⟨"l", 2, 0⟩, ⟨"m", 13, 0⟩,
        ⟨"n", 4, 0⟩, ⟨"o", 15, 0⟩]).1).length = 15 - 3 * 10 / 4 ∧
      ∀ r ∈ (cleanupOldEntriesIfNeeded 10 [⟨"a", 1, 0⟩, ⟨"b", 12, 0⟩, ⟨"c", 3, 0⟩,
        ⟨"d", 14, 0⟩, ⟨"e", 5, 0⟩, ⟨"f", 10, 0⟩, ⟨"g", 7, 0⟩, ⟨"h", 8, 0⟩,
        ⟨"i", 9, 0⟩, ⟨"j", 6, 0⟩, ⟨"k", 11, 0⟩, ⟨"l", 2, 0⟩, ⟨"m", 13, 0⟩,
        ⟨"n", 4, 0⟩, ⟨"o", 15, 0⟩]).1,
        ∀ k ∈ (cleanupOldEntriesIfNeeded 10 [⟨"a", 1, 0⟩, ⟨"b", 12, 0⟩,
          ⟨"c", 3, 0⟩, ⟨"d", 14, 0⟩, ⟨"e", 5, 0⟩, ⟨"f", 10, 0⟩, ⟨"g", 7, 0⟩,
          ⟨"h", 8, 0⟩, ⟨"i", 9, 0⟩, ⟨"j", 6, 0⟩, ⟨"k", 11, 0⟩, ⟨"l", 2, 0⟩,
          ⟨"m", 13, 0⟩, ⟨"n", 4, 0⟩, ⟨"o", 15, 0⟩]).2,
          r.lastAccessed ≤ k.lastAccessed) :=
  ⟨by decide, cleanup_evicts_oldest_down_to_75_percent 10 _ (by decide)⟩

/-! ## Error recovery strategy (`errorRecoveryStrategyImpl`) -/

/-- Retry configuration `RETRY_CONFIG` from constants/cache. -/
def RETRY_MAX_RETRIES : Nat := 3

/-- Base retry delay in milliseconds (`RETRY_CONFIG.RETRY_DELAY`). -/
def RETRY_DELAY : Nat := 1000

/-- Exponential backoff multiplier (`RETRY_CONFIG.BACKOFF_MULTIPLIER`). -/
def BACKOFF_MULTIPLIER : Nat := 2

/-- Error taxonomy `CacheErrorType`.  The classifier `detectErrorType` maps a
thrown error's message/name onto this taxonomy; in the model, store failures
are produced directly as taxonomy members. -/
inductive CacheErrorTypeM
  | INITIALIZATION_FAILED
  | STORAGE_QUOTA_EXCEEDED
  | DATA_CORRUPTION
  | SERIALIZATION_ERROR
  | TIMEOUT_ERROR
  | UNKNOWN_ERROR
  deriving Repr, DecidableEq

/-- Recovery actions `RecoveryAction`. -/
inductive RecoveryActionM
  | RETRY_OPERATION
  | CLEANUP_AND_RETRY
  | FALLBACK_TO_NON_CACHED
  | DELETE_CORRUPTED_CACHE
  | REDUCE_BATCH_SIZE
  deriving Repr, DecidableEq

/-- Mutable state of one `ErrorRecoveryStrategyImpl` instance: the sticky
`fallbackMode` flag and the per-operation `retryCount` map. -/
structure RecoveryState where
  fallbackMode : Bool
  retryCount : List (String × Nat)
  deriving Repr, DecidableEq

/-- JS `Map.get`. -/
def assocLookup {α : Type} : List (String × α) → String → Option α
  | [], _ => none
  | (k, v) :: rest, q => if k = q then some v else assocLookup rest q

/-- JS `Map.set`: replace the binding in place, else append. -/
def assocSet {α : Type} : List (String × α) → String → α → List (String × α)
  | [], q, v => [(q, v)]
  | (k, w) :: rest, q, v =>
    if k = q then (q, v) :: rest else (k, w) :: assocSet rest q v

/-- JS `Map.delete`. -/
def assocRemove {α : Type} : List (String × α) → String → List (String × α)
  | [], _ => []
  | (k, w) :: rest, q => if k = q then rest else (k, w) :: assocRemove rest q

/-- `getRetryCount`: the recorded count, defaulting to 0. -/
def getRetryCount (st : RecoveryState) (operationId : String) : Nat :=
  (assocLookup st.retryCount operationId).getD 0

/-- `incrementRetryCount`. -/
def incrementRetryCount (st : RecoveryState) (operationId : String) : RecoveryState :=
  { st with retryCount :=
      assocSet st.retryCount operationId (getRetryCount st operationId + 1) }

/-- `resetRetryCount`. -/
def resetRetryCount (st : RecoveryState) (operationId : String) : RecoveryState :=
  { st with retryCount := assocRemove st.retryCount operationId }

/-- `shouldRetry`: below `MAX_RETRIES` and not in fallback mode. -/
def shouldRetry (st : RecoveryState) (operationId : String) : Bool :=
  decide (getRetryCount st operationId < RETRY_MAX_RETRIES) && !st.fallbackMode

/-- `calculateRetryDelay`: `RETRY_DELAY * BACKOFF_MULTIPLIER ^ retryCount`. -/
def calculateRetryDelay (st : RecoveryState) (operationId : String) : Nat :=
  RETRY_DELAY * BACKOFF_MULTIPLIER ^ getRetryCount st operationId

/-- `fallbackToNonCached`: set the sticky flag, clear all retry counters,
always report success. -/
def fallbackToNonCached (st : RecoveryState) : RecoveryState :=
  { st with fallbackMode := true, retryCount := [] }

/-- `resetFallbackMode`: clear the flag and the retry counters. -/
def resetFallbackMode (st : RecoveryState) : RecoveryState :=
  { st with fallbackMode := false, retryCount := [] }

/-- `selectRecoveryStrategy`. -/
def selectRecoveryStrategy (st : RecoveryState) (errorType : CacheErrorTypeM) :
    RecoveryActionM :=
  if st.fallbackMode then .FALLBACK_TO_NON_CACHED
  else match errorType with
    | .INITIALIZATION_FAILED => .FALLBACK_TO_NON_CACHED
    | .STORAGE_QUOTA_EXCEEDED => .CLEANUP_AND_RETRY
    | .DATA_CORRUPTION => .DELETE_CORRUPTED_CACHE
    | .SERIALIZATION_ERROR => .FALLBACK_TO_NON_CACHED
    | .TIMEOUT_ERROR => .RETRY_OPERATION
    | .UNKNOWN_ERROR => .CLEANUP_AND_RETRY

/-- `executeRecovery`: only `FALLBACK_TO_NON_CACHED` has a real effect; the
other strategies are placeholders that report success. -/
def executeRecovery (st : RecoveryState) (action : RecoveryActionM) :
    Bool × RecoveryState :=
  match action with
  | .FALLBACK_TO_NON_CACHED => (true, fallbackToNonCached st)
  | _ => (true, st)

/-- Result record of `handleError`. -/
structure HandleErrorResult where
  recovered : Bool
  action : RecoveryActionM
  shouldFallback : Bool
  deriving Repr, DecidableEq

/-- `handleError` on an already classified error: force fallback when
retries are exhausted, else select a strategy, bump the counter and run
the recovery action. -/
def handleError (st : RecoveryState) (errorType : CacheErrorTypeM)
    (operationId : String) : HandleErrorResult × RecoveryState :=
  if shouldRetry st operationId = false then
    ({ recovered := true, action := .FALLBACK_TO_NON_CACHED, shouldFallback := true },
      fallbackToNonCached st)
  else
    let action := selectRecoveryStrategy st errorType
    let st := incrementRetryCount st operationId
    let (recovered, st) := executeRecovery st action
    ({ recovered := recovered, action := action, shouldFallback := st.fallbackMode }, st)

theorem assocLookup_set {α : Type} (l : List (String × α)) (q : String) (v : α) :
    assocLookup (assocSet l q v) q = some v := by
  induction l with
  | nil => simp [assocSet, assocLookup]
  | cons p rest ih =>
    obtain ⟨k, w⟩ := p
    by_cases hk : k = q
    · simp [assocSet, assocLookup, hk]
    · simp only [assocSet, assocLookup, if_neg hk]
      exact ih

theorem getRetryCount_increment (st : RecoveryState) (operationId : String) :
    getRetryCount (incrementRetryCount st operationId) operationId
      = getRetryCount st operationId + 1 := by
  simp [getRetryCount, incrementRetryCount, assocLookup_set]

/-- Claim C9: for a fresh operation id with fallback mode off, `shouldRetry`
is true at recorded counts 0, 1 and 2 and false after the third increment;
`calculateRetryDelay` returns 1000, 2000 and 4000 ms at counts 0, 1 and 2. -/
theorem retry_limits_and_backoff_delays (st : RecoveryState) (operationId : String)
    (hfb : st.fallbackMode = false) (h0 : getRetryCount st operationId = 0) :
    shouldRetry st operationId = true ∧
    calculateRetryDelay st operationId = 1000 ∧
    shouldRetry (incrementRetryCount st operationId) operationId = true ∧
    calculateRetryDelay (incrementRetryCount st operationId) operationId = 2000 ∧
    shouldRetry (incrementRetryCount (incrementRetryCount st operationId) operationId)
      operationId = true ∧
    calculateRetryDelay (incrementRetryCount (incrementRetryCount st operationId)
      operationId) operationId = 4000 ∧
    shouldRetry (incrementRetryCount (incrementRetryCount (incrementRetryCount st
      operationId) operationId) operationId) operationId = false := by
  have hfb1 : (incrementRetryCount st operationId).fallbackMode = false := hfb
  have hfb2 : (incrementRetryCount (incrementRetryCount st operationId)
      operationId).fallbackMode = false := hfb
  have hfb3 : (incrementRetryCount (incrementRetryCount (incrementRetryCount st
      operationId) operationId) operationId).fallbackMode = false := hfb
  have h1 := getRetryCount_increment st operationId
  have h2 := getRetryCount_increment (incrementRetryCount st operationId) operationId
  have h3 := getRetryCount_increment
    (incrementRetryCount (incrementRetryCount st operationId) operationId) operationId
  refine ⟨?_, ?_, ?_, ?_, ?_, ?_, ?_⟩ <;>
    simp [shouldRetry, calculateRetryDelay, RETRY_MAX_RETRIES, RETRY_DELAY,
      BACKOFF_MULTIPLIER, hfb, hfb1, hfb2, hfb3, h0, h1, h2, h3]

/-- Witness for C9: the fresh strategy instance and a concrete operation id. -/
theorem retry_limits_and_backoff_delays_witness :
    (⟨false, []⟩ : RecoveryState).fallbackMode = false ∧
    getRetryCount ⟨false, []⟩ "cache_write" = 0 ∧
    (shouldRetry ⟨false, []⟩ "cache_write" = true ∧
      calculateRetryDelay ⟨false, []⟩ "cache_write" = 1000 ∧
      shouldRetry (incrementRetryCount ⟨false, []⟩ "cache_write") "cache_write" = true ∧
      calculateRetryDelay (incrementRetryCount ⟨false, []⟩ "cache_write")
        "cache_write" = 2000 ∧
      shouldRetry (incrementRetryCount (incrementRetryCount ⟨false, []⟩ "cache_write")
        "cache_write") "cache_write" = true ∧
      calculateRetryDelay (incrementRetryCount (incrementRetryCount ⟨false, []⟩
        "cache_write") "cache_write") "cache_write" = 4000 ∧
      shouldRetry (incrementRetryCount (incrementRetryCount (incrementRetryCount
        ⟨false, []⟩ "cache_write") "cache_write") "cache_write") "cache_write" = false) := by
  refine ⟨rfl, rfl, ?_⟩
  have h := retry_limits_and_backoff_delays ⟨false, []⟩ "cache_write" rfl rfl
  exact ⟨h.1, h.2.1, h.2.2.1, h.2.2.2.1, h.2.2.2.2.1, h.2.2.2.2.2.1, h.2.2.2.2.2.2⟩

/-! ## Cache manager state machine (`CacheManagerImpl` in cache.ts)

The persistent store is an association list keyed by cache key; IndexedDB
reads and deletes are modelled as infallible, while each `put` consumes the
head of an explicit failure schedule (empty schedule = success), which is
how quota and other storage failures enter the model.  `putAttempts` and
`quotaCleanups` count the store writes attempted and the eviction cleanups
run, for stating the retry claims. -/

/-- Metadata record `CacheMetadata`. -/
structure CacheMetadataM where
  timestamp : Nat
  lastAccessed : Nat
  dataHash : String
  transformHash : String
  totalSize : Nat
  batchSize : Nat
  deriving Repr, DecidableEq

/-- Persisted entry record `CacheEntry`. -/
structure CacheEntryM (R : Type) where
  key : String
  data : List R
  metadata : CacheMetadataM
  batches : List (CacheBatchM R)
  isComplete : Bool
  version : String
  deriving Repr, DecidableEq

/-- Result record `CacheResult` returned by `checkCache`. -/
structure CacheResultM (R : Type) where
  data : List R
  isComplete : Bool
  timestamp : Nat
  batches : List (CacheBatchM R)
  deriving Repr, DecidableEq

/-- Entry of the per-key deferred-write queue in `storeBatch`. -/
structure QueuedBatchM (R : Type) where
  index : Nat
  data : List R
  timestamp : Nat
  deriving Repr, DecidableEq

/-- Outcome of one `dbWrapper.put` attempt. -/
inductive PutOutcome
  | ok
  | quotaFail
  | otherFail
  deriving Repr, DecidableEq

/-- Configuration relevant to the modelled operations
(`maxAge`, `maxSize` from `CacheOptions`/defaults). -/
structure CacheConfigM where
  maxAge : Nat
  maxSize : Nat
  deriving Repr, DecidableEq

/-- State of one `CacheManagerImpl` instance together with its store. -/
structure CacheState (R : Type) where
  store : List (String × CacheEntryM R)
  recovery : RecoveryState
  batchQueue : List (String × List (QueuedBatchM R))
  putSchedule : List PutOutcome
  putAttempts : Nat
  quotaCleanups : Nat
  isInitialized : Bool
  deriving Repr, DecidableEq

/-- One `dbWrapper.put`: consume the next scheduled outcome; on success the
entry is upserted by key, on failure the store is untouched and the error
surfaces (classified as its taxonomy kind). -/
def dbPut {R : Type} (st : CacheState R) (key : String) (e : CacheEntryM R) :
    Except CacheErrorTypeM Unit × CacheState R :=
  let st := { st with putAttempts := st.putAttempts + 1 }
  match st.putSchedule with
  | [] => (.ok (), { st with store := assocSet st.store key e })
  | o :: rest =>
    let st := { st with putSchedule := rest }
    match o with
    | .ok => (.ok (), { st with store := assocSet st.store key e })
    | .quotaFail => (.error .STORAGE_QUOTA_EXCEEDED, st)
    | .otherFail => (.error .UNKNOWN_ERROR, st)

/-- `isQuotaExceededError`: the message/name sniffing recognises exactly the
quota-classified failures of the model. -/
def isQuotaExceededError (e : CacheErrorTypeM) : Bool :=
  e = .STORAGE_QUOTA_EXCEEDED

/-- `validateCacheEntry`: the structural checks hold by typing; the version
check (`version.startsWith(CACHE_VERSION.split(".")[0])`, the major
component being "1") can fail, throwing a `DATA_CORRUPTION` cache error.
The prefix test is written on character lists so that it evaluates by
kernel reduction. -/
def validateCacheEntry {R : Type} (e : CacheEntryM R) :
    Except CacheErrorTypeM (CacheEntryM R) :=
  if e.version.toList.take ("1".toList.length) = "1".toList then .ok e
  else .error .DATA_CORRUPTION

/-- `isCacheExpired`: `now - metadata.timestamp > maxAge` (entries are
written with `timestamp ≤ now`, so `Nat` subtraction is exact). -/
def isCacheExpired (cfg : CacheConfigM) (now : Nat) {R : Type}
    (e : CacheEntryM R) : Bool :=
  decide (now - e.metadata.timestamp > cfg.maxAge)

/-- JSON serialization of a result array given the item serializer. -/
def jsonSerList {R : Type} (serialize : R → String) (data : List R) : String :=
  "[" ++ String.intercalate "," (data.map serialize) ++ "]"

/-- `calculateDataSize`: JSON length times two bytes per character. -/
def calculateDataSize {R : Type} (serialize : R → String) (data : List R) : Nat :=
  (jsonSerList serialize data).length * 2

/-- `getOrCreateCacheEntry`: reuse a stored entry that validates, otherwise
build a fresh incomplete entry (note the source quirk
`batchSize: this.config.maxSize || 500`). -/
def getOrCreateCacheEntry {R : Type} (serialize : R → String) (cfg : CacheConfigM)
    (st : CacheState R) (key : String) (data : List R) (now : Nat) :
    CacheEntryM R :=
  match assocLookup st.store key with
  | some rawEntry =>
    match validateCacheEntry rawEntry with
    | .ok e => e
    | .error _ => newCacheEntry serialize cfg key data now
  | none => newCacheEntry serialize cfg key data now
where
  /-- Fresh incomplete entry as built at the end of `getOrCreateCacheEntry`. -/
  newCacheEntry (serialize : R → String) (cfg : CacheConfigM) (key : String)
      (data : List R) (now : Nat) : CacheEntryM R :=
    { key := key
      data := []
      metadata :=
        { timestamp := now
          lastAccessed := now
          dataHash := createHash (jsonSerList serialize data)
          transformHash := ""
          totalSize := 0
          batchSize := if cfg.maxSize = 0 then 500 else cfg.maxSize }
      batches := []
      isComplete := false
      version := CACHE_VERSION }

/-- `handleStorageQuotaExceeded`: collect the valid entries with their
`lastAccessed` stamps, sort ascending, and delete the oldest
`max(1, ⌊count * 0.25⌋)` of them (`0.25` is an exact float, so the count is
`count / 4` in `Nat`).  Reads and deletes are infallible in the model, so
the cleanup itself always succeeds. -/
def handleStorageQuotaExceeded {R : Type} (st : CacheState R) : CacheState R :=
  let st := { st with quotaCleanups := st.quotaCleanups + 1 }
  if st.store.length = 0 then st
  else
    let entriesWithTimestamps := st.store.filterMap (fun kv =>
      match validateCacheEntry kv.2 with
      | .ok e => some (⟨kv.1, e.metadata.lastAccessed, 0⟩ : ValidEntryM)
      | .error _ => none)
    let sorted := List.insertionSort entryLE entriesWithTimestamps
    let entriesToRemove := max 1 (entriesWithTimestamps.length / 4)
    (sorted.take entriesToRemove).foldl
      (fun acc e => { acc with store := assocRemove acc.store e.key }) st

/-- Body of `markComplete` with its quota-cleanup-and-retry catch handler.
The fuel dominates the put-failure budget (`putSchedule.length + 1`), and
each recursion consumes one scheduled failure, so the fuel never runs out;
in the real code the same recursion is bounded only by the store ceasing to
fail. -/
def markCompleteGo {R : Type} (serialize : R → String) (cfg : CacheConfigM)
    (key : String) (totalResult : List R) (now : Nat) :
    Nat → CacheState R → CacheState R
  | 0, st => st
  | fuel + 1, st =>
    let entry := getOrCreateCacheEntry serialize cfg st key totalResult now
    let entry := { entry with
      isComplete := true
      data := totalResult
      metadata := { entry.metadata with
        lastAccessed := now
        totalSize := calculateDataSize serialize totalResult } }
    match dbPut st key entry with
    | (.ok _, st') => st'
    | (.error e, st') =>
      if isQuotaExceededError e then
        markCompleteGo serialize cfg key totalResult now fuel
          (handleStorageQuotaExceeded st')
      else st'

/-- `markComplete`: guarded only by `isInitialized` (the fallback flag is
not consulted); every failure is caught, so it always returns a state and
never surfaces an error. -/
def markComplete {R : Type} (serialize : R → String) (cfg : CacheConfigM)
    (st : CacheState R) (key : String) (totalResult : List R) (now : Nat) :
    CacheState R :=
  if st.isInitialized = false then st
  else markCompleteGo serialize cfg key totalResult now (st.putSchedule.length + 1) st

/-- Completion step of `executeStep`: the generator finished with `result`;
`setResult(genResult.value)` installs it and `markComplete` runs inside its
own try/catch, so the delivered in-memory result is independent of any cache
failure. -/
def completeRun {R : Type} (serialize : R → String) (cfg : CacheConfigM)
    (st : CacheState R) (key : String) (result : List R) (now : Nat) :
    List R × CacheState R :=
  (result, markComplete serialize cfg st key result now)

/-- `storeBatch`: silently skip when uninitialised or in fallback mode, else
append the batch to the per-key deferred queue (the debounce timer then
leads to `flushBatchQueue`). -/
def storeBatch {R : Type} (st : CacheState R) (key : String) (batch : List R)
    (batchIndex : Nat) (now : Nat) : CacheState R :=
  if st.isInitialized = false || st.recovery.fallbackMode then st
  else
    let q := (assocLookup st.batchQueue key).getD []
    { st with batchQueue :=
        assocSet st.batchQueue key (q ++ [⟨batchIndex, batch, now⟩]) }

/-- Whether batch compression is enabled
(`private compressionEnabled = true`, the default and only value). -/
def compressionEnabled : Bool := true

/-- Deduplication core of `compressBatchData`: keep the first item for each
JSON serialization, in order. -/
def dedupGo {R : Type} (serialize : R → String) (seen : List String) :
    List R → List R
  | [] => []
  | x :: xs =>
    if serialize x ∈ seen then dedupGo serialize seen xs
    else x :: dedupGo serialize (serialize x :: seen) xs

/-- `compressBatchData`: deduplicate by JSON representation and keep the
compressed array only when it is strictly shorter. -/
def compressBatchData {R : Type} (serialize : R → String) (data : List R) :
    List R :=
  if data.length ≤ 1 then data
  else
    let compressed := dedupGo serialize [] data
    if compressed.length < data.length then compressed else data

/-- Successful body of `flushBatchQueue`'s wrapped operation: upsert every
queued batch (compressed) into the entry, re-sort, recombine `data`, update
metadata, and put the entry. -/
def flushBody {R : Type} (serialize : R → String) (cfg : CacheConfigM)
    (st : CacheState R) (key : String) (q : List (QueuedBatchM R)) (now : Nat) :
    Except CacheErrorTypeM Unit × CacheState R :=
  let entry := getOrCreateCacheEntry serialize cfg st key [] now
  let newBatches := q.foldl (fun bs qb =>
    upsertBatch bs
      { index := qb.index
        data := if compressionEnabled then compressBatchData serialize qb.data
          else qb.data
        timestamp := qb.timestamp
        size := calculateDataSize serialize qb.data }) entry.batches
  let sortedB := sortBatches newBatches
  let newData := combineBatchData sortedB
  let entry := { entry with
    batches := sortedB
    data := newData
    metadata := { entry.metadata with
      lastAccessed := now
      totalSize := calculateDataSize serialize newData } }
  dbPut st key entry

/-- `flushBatchQueue`: no-op for an empty queue.  The operation runs inside
`createRecoveryWrapper`, which in fallback mode returns the fallback value
without touching the store, resets the retry counter on success, and on
failure runs `handleError` and returns the fallback value (our put failures
select `CLEANUP_AND_RETRY` or force fallback, never `RETRY_OPERATION`, so
the wrapper's own retry loop is not entered).  Because the wrapper never
rethrows, `flushBatchQueue` always reaches the line that clears the queue,
and its quota catch branch is dead code. -/
def flushBatchQueue {R : Type} (serialize : R → String) (cfg : CacheConfigM)
    (st : CacheState R) (key : String) (now : Nat) : CacheState R :=
  let q := (assocLookup st.batchQueue key).getD []
  if q.length = 0 then st
  else if st.recovery.fallbackMode then
    { st with batchQueue := assocSet st.batchQueue key [] }
  else
    match flushBody serialize cfg st key q now with
    | (.ok _, st') =>
      { st' with
        recovery := resetRetryCount st'.recovery ("flush_batch_queue_" ++ key)
        batchQueue := assocSet st'.batchQueue key [] }
    | (.error e, st') =>
      let (_, rec') := handleError st'.recovery e ("flush_batch_queue_" ++ key)
      { st' with
        recovery := rec'
        batchQueue := assocSet st'.batchQueue key [] }

/-- `checkCache`: return `null` immediately when uninitialised or in
fallback mode; otherwise look the entry up inside `createRecoveryWrapper`
(reads are infallible in the model, so only a validation throw reaches the
wrapper's error path; `DELETE_CORRUPTED_CACHE` is a placebo, so an invalid
entry is not actually deleted).  An expired entry is deleted and treated as
a miss; a hit touches `lastAccessed` via a put whose failure is swallowed,
and returns the loaded entry's fields. -/
def checkCache {R : Type} (cfg : CacheConfigM) (st : CacheState R)
    (key : String) (now : Nat) : Option (CacheResultM R) × CacheState R :=
  if st.isInitialized = false || st.recovery.fallbackMode then (none, st)
  else
    match assocLookup st.store key with
    | none =>
      (none, { st with recovery :=
        resetRetryCount st.recovery ("cache_check_" ++ key) })
    | some rawEntry =>
      match validateCacheEntry rawEntry with
      | .error err =>
        let (_, rec') := handleError st.recovery err ("cache_check_" ++ key)
        (none, { st with recovery := rec' })
      | .ok entry =>
        if isCacheExpired cfg now entry then
          (none, { st with
            store := assocRemove st.store key
            recovery := resetRetryCount st.recovery ("cache_check_" ++ key) })
        else
          let updated := { entry with metadata :=
            { entry.metadata with lastAccessed := now } }
          let st' := (dbPut st key updated).2
          (some ⟨entry.data, entry.isComplete, entry.metadata.timestamp,
              entry.batches⟩,
            { st' with recovery :=
              resetRetryCount st'.recovery ("cache_check_" ++ key) })

theorem dbPut_recovery {R : Type} (st : CacheState R) (key : String)
    (e : CacheEntryM R) : (dbPut st key e).2.recovery = st.recovery := by
  unfold dbPut
  cases hs : st.putSchedule with
  | nil => rfl
  | cons o rest => cases o <;> simp [hs]

theorem foldl_remove_recovery {R : Type} (l : List ValidEntryM) :
    ∀ st : CacheState R,
      (l.foldl (fun acc e => { acc with store := assocRemove acc.store e.key })
        st).recovery = st.recovery := by
  induction l with
  | nil => intro st; rfl
  | cons x xs ih => intro st; exact ih _

theorem handleStorageQuotaExceeded_recovery {R : Type} (st : CacheState R) :
    (handleStorageQuotaExceeded st).recovery = st.recovery := by
  unfold handleStorageQuotaExceeded
  dsimp only
  split
  · rfl
  · exact foldl_remove_recovery _ _

theorem markCompleteGo_recovery {R : Type} (serialize : R → String)
    (cfg : CacheConfigM) (key : String) (totalResult : List R) (now : Nat) :
    ∀ (fuel : Nat) (st : CacheState R),
      (markCompleteGo serialize cfg key totalResult now fuel st).recovery
        = st.recovery := by
  intro fuel
  induction fuel with
  | zero => intro st; rfl
  | succ n ih =>
    intro st
    unfold markCompleteGo
    dsimp only
    split
    · rename_i st' heq
      have h := dbPut_recovery st key
        ({ getOrCreateCacheEntry serialize cfg st key totalResult now with
          isComplete := true
          data := totalResult
          metadata := { (getOrCreateCacheEntry serialize cfg st key totalResult
              now).metadata with
            lastAccessed := now
            totalSize := calculateDataSize serialize totalResult } })
      rw [heq] at h
      exact h
    · rename_i err st' heq
      have h := dbPut_recovery st key
        ({ getOrCreateCacheEntry serialize cfg st key totalResult now with
          isComplete := true
          data := totalResult
          metadata := { (getOrCreateCacheEntry serialize cfg st key totalResult
              now).metadata with
            lastAccessed := now
            totalSize := calculateDataSize serialize totalResult } })
      rw [heq] at h
      split
      · rw [ih (handleStorageQuotaExceeded st'),
          handleStorageQuotaExceeded_recovery st']
        exact h
      · exact h

theorem markComplete_recovery {R : Type} (serialize : R → String)
    (cfg : CacheConfigM) (st : CacheState R) (key : String)
    (totalResult : List R) (now : Nat) :
    (markComplete serialize cfg st key totalResult now).recovery = st.recovery := by
  unfold markComplete
  split
  · rfl
  · exact markCompleteGo_recovery serialize cfg key totalResult now _ st

/-- Concrete cache-manager state in fallback mode (after
`fallbackToNonCached()`), initialised, with an empty store. -/
def fallbackCacheState : CacheState Nat :=
  { store := []
    recovery := fallbackToNonCached ⟨false, []⟩
    batchQueue := []
    putSchedule := []
    putAttempts := 0
    quotaCleanups := 0
    isInitialized := true }

/-- Claim C2 counterexample: `markComplete` is guarded only by
`isInitialized` and never consults the fallback flag, so with the fallback
flag set it still writes the completed entry to the persistent store — not
every cache operation is a no-op in fallback mode. -/
theorem fallback_markComplete_writes_counterexample :
    fallbackCacheState.recovery.fallbackMode = true ∧
    (markComplete (fun n : Nat => toString n) ⟨86400000, 100⟩ fallbackCacheState
        "k" [5] 0).store ≠ fallbackCacheState.store := by
  refine ⟨rfl, ?_⟩
  decide

/-- Claim C2 amended: once the fallback flag is set, `checkCache` and
`storeBatch` return immediately and leave the whole state unchanged, and a
queue flush leaves the persistent store untouched (it only discards the
queued batches); the flag never clears on its own — `checkCache`,
`storeBatch`, `flushBatchQueue` and `markComplete` all preserve it, and only
`resetFallbackMode()` resets it.  `markComplete`, however, is not guarded by
the flag and still writes to the store (see the counterexample). -/
theorem fallback_short_circuits_until_reset {R : Type} (serialize : R → String)
    (cfg : CacheConfigM) (st : CacheState R) (key : String) (batch : List R)
    (batchIndex now : Nat) (totalResult : List R)
    (hfb : st.recovery.fallbackMode = true) :
    checkCache cfg st key now = (none, st) ∧
    storeBatch st key batch batchIndex now = st ∧
    (flushBatchQueue serialize cfg st key now).store = st.store ∧
    (flushBatchQueue serialize cfg st key now).recovery.fallbackMode = true ∧
    (markComplete serialize cfg st key totalResult now).recovery.fallbackMode
      = true ∧
    resetFallbackMode st.recovery = ⟨false, []⟩ := by
  refine ⟨?_, ?_, ?_, ?_, ?_, rfl⟩
  · simp [checkCache, hfb]
  · simp [storeBatch, hfb]
  · by_cases hq : ((assocLookup st.batchQueue key).getD []).length = 0
    · simp [flushBatchQueue, hq]
    · simp [flushBatchQueue, hq, hfb]
  · by_cases hq : ((assocLookup st.batchQueue key).getD []).length = 0
    · simp [flushBatchQueue, hq, hfb]
    · simp [flushBatchQueue, hq, hfb]
  · rw [markComplete_recovery]
    exact hfb

/-- Witness for the C2 amended theorem at the concrete fallback state with a
pending queued batch. -/
theorem fallback_short_circuits_until_reset_witness :
    ({ fallbackCacheState with
        batchQueue := [("k", [⟨0, [1], 0⟩])] } : CacheState Nat).recovery.fallbackMode
      = true ∧
    (checkCache ⟨86400000, 100⟩
        { fallbackCacheState with batchQueue := [("k", [⟨0, [1], 0⟩])] } "k" 0
        = (none, { fallbackCacheState with batchQueue := [("k", [⟨0, [1], 0⟩])] }) ∧
      storeBatch { fallbackCacheState with batchQueue := [("k", [⟨0, [1], 0⟩])] }
          "k" [2] 1 0
        = { fallbackCacheState with batchQueue := [("k", [⟨0, [1], 0⟩])] } ∧
      (flushBatchQueue (fun n : Nat => toString n) ⟨86400000, 100⟩
          { fallbackCacheState with batchQueue := [("k", [⟨0, [1], 0⟩])] } "k" 0).store
        = ({ fallbackCacheState with
            batchQueue := [("k", [⟨0, [1], 0⟩])] } : CacheState Nat).store ∧
      (flushBatchQueue (fun n : Nat => toString n) ⟨86400000, 100⟩
          { fallbackCacheState with batchQueue := [("k", [⟨0, [1], 0⟩])] } "k"
          0).recovery.fallbackMode = true ∧
      (markComplete (fun n : Nat => toString n) ⟨86400000, 100⟩
          { fallbackCacheState with batchQueue := [("k", [⟨0, [1], 0⟩])] } "k" [2]
          0).recovery.fallbackMode = true ∧
      resetFallbackMode ({ fallbackCacheState with
          batchQueue := [("k", [⟨0, [1], 0⟩])] } : CacheState Nat).recovery
        = ⟨false, []⟩) :=
  ⟨rfl, fallback_short_circuits_until_reset (fun n : Nat => toString n)
    ⟨86400000, 100⟩ { fallbackCacheState with batchQueue := [("k", [⟨0, [1], 0⟩])] }
    "k" [2] 1 0 [2] rfl⟩

/-- Concrete cache-manager state for exercising `markComplete` against a
given schedule of put outcomes. -/
def quotaProbeState (sched : List PutOutcome) : CacheState Nat :=
  { store := []
    recovery := ⟨false, []⟩
    batchQueue := []
    putSchedule := sched
    putAttempts := 0
    quotaCleanups := 0
    isInitialized := true }

/-- Claim C7 counterexample: when the put retried after the eviction cleanup
fails with a quota error again, `markComplete` does not skip caching — it
runs the cleanup and retries again (its catch recurses into `markComplete`).
With put outcomes [quota failure, quota failure, success] it makes 3 store
attempts and 2 cleanups, and the completed entry ends up stored, instead of
the claimed single cleanup, single retry and skip. -/
theorem markComplete_retries_more_than_once_counterexample :
    (markComplete (fun n : Nat => toString n) ⟨86400000, 100⟩
        (quotaProbeState [.quotaFail, .quotaFail, .ok]) "k" [5] 0).putAttempts = 3 ∧
    (markComplete (fun n : Nat => toString n) ⟨86400000, 100⟩
        (quotaProbeState [.quotaFail, .quotaFail, .ok]) "k" [5] 0).quotaCleanups = 2 ∧
    (3 : Nat) ≠ 2 ∧
    ((assocLookup (markComplete (fun n : Nat => toString n) ⟨86400000, 100⟩
        (quotaProbeState [.quotaFail, .quotaFail, .ok]) "k" [5] 0).store "k").map
      (fun e => e.isComplete)) = some true := by
  refine ⟨by decide, by decide, by decide, by decide⟩

/-- Claim C7 amended: a failure inside `markComplete` is swallowed — the
completed run still delivers its in-memory result unchanged and the error
recovery state is never touched; when the failure is quota-classified,
`markComplete` runs an eviction-based cleanup and retries the store, and it
repeats cleanup-and-retry while the retries keep failing with quota errors
(rather than retrying exactly once); caching is skipped when the retried put
fails with a non-quota error.  Concretely: [quota, success] gives one
cleanup, two attempts and a stored entry; [quota, non-quota] gives one
cleanup, two attempts and no entry (caching skipped); a plain non-quota
failure gives one attempt, no cleanup and no entry. -/
theorem markComplete_swallows_failures_and_repeats_quota_retry {R : Type}
    (serialize : R → String) (cfg : CacheConfigM) (st : CacheState R)
    (key : String) (result : List R) (now : Nat) :
    ((completeRun serialize cfg st key result now).1 = result ∧
      (markComplete serialize cfg st key result now).recovery = st.recovery) ∧
    ((markComplete (fun n : Nat => toString n) ⟨86400000, 100⟩
        (quotaProbeState [.quotaFail]) "k" [5] 0).putAttempts = 2 ∧
      (markComplete (fun n : Nat => toString n) ⟨86400000, 100⟩
        (quotaProbeState [.quotaFail]) "k" [5] 0).quotaCleanups = 1 ∧
      ((assocLookup (markComplete (fun n : Nat => toString n) ⟨86400000, 100⟩
          (quotaProbeState [.quotaFail]) "k" [5] 0).store "k").map
        (fun e => e.isComplete)) = some true) ∧
    ((markComplete (fun n : Nat => toString n) ⟨86400000, 100⟩
        (quotaProbeState [.quotaFail, .otherFail]) "k" [5] 0).putAttempts = 2 ∧
      (markComplete (fun n : Nat => toString n) ⟨86400000, 100⟩
        (quotaProbeState [.quotaFail, .otherFail]) "k" [5] 0).quotaCleanups = 1 ∧
      assocLookup (markComplete (fun n : Nat => toString n) ⟨86400000, 100⟩
        (quotaProbeState [.quotaFail, .otherFail]) "k" [5] 0).store "k" = none) ∧
    ((markComplete (fun n : Nat => toString n) ⟨86400000, 100⟩
        (quotaProbeState [.otherFail]) "k" [5] 0).putAttempts = 1 ∧
      (markComplete (fun n : Nat => toString n) ⟨86400000, 100⟩
        (quotaProbeState [.otherFail]) "k" [5] 0).quotaCleanups = 0 ∧
      assocLookup (markComplete (fun n : Nat => toString n) ⟨86400000, 100⟩
        (quotaProbeState [.otherFail]) "k" [5] 0).store "k" = none) := by
  refine ⟨⟨rfl, markComplete_recovery serialize cfg st key result now⟩,
    ⟨by decide, by decide, by decide⟩,
    ⟨by decide, by decide, by decide⟩,
    ⟨by decide, by decide, by decide⟩⟩

theorem dedupGo_length_le {R : Type} (serialize : R → String) :
    ∀ (data : List R) (seen : List String),
      (dedupGo serialize seen data).length ≤ data.length := by
  intro data
  induction data with
  | nil => intro seen; simp [dedupGo]
  | cons x xs ih =>
    intro seen
    unfold dedupGo
    split
    · exact le_trans (ih seen) (by simp)
    · simpa using ih (serialize x :: seen)

theorem dedupGo_mem {R : Type} (serialize : R → String) :
    ∀ (data : List R) (seen : List String) (y : R),
      y ∈ dedupGo serialize seen data → y ∈ data := by
  intro data
  induction data with
  | nil => intro seen y hy; simp [dedupGo] at hy
  | cons x xs ih =>
    intro seen y hy
    unfold dedupGo at hy
    split at hy
    · exact List.mem_cons_of_mem x (ih seen y hy)
    · rcases List.mem_cons.mp hy with h | h
      · exact h ▸ List.mem_cons_self x xs
      · exact List.mem_cons_of_mem x (ih (serialize x :: seen) y h)

theorem dedupGo_lt_of_seen {R : Type} (serialize : R → String) :
    ∀ (data : List R) (seen : List String),
      (∃ x ∈ data, serialize x ∈ seen) →
      (dedupGo serialize seen data).length < data.length := by
  intro data
  induction data with
  | nil => intro seen h; simp at h
  | cons x xs ih =>
    intro seen h
    unfold dedupGo
    split
    · calc (dedupGo serialize seen xs).length ≤ xs.length :=
        dedupGo_length_le serialize xs seen
      _ < (x :: xs).length := by simp
    · rename_i hnotin
      obtain ⟨z, hz, hzs⟩ := h
      rcases List.mem_cons.mp hz with rfl | hzxs
      · exact absurd hzs hnotin
      · have := ih (serialize x :: seen) ⟨z, hzxs, List.mem_cons_of_mem _ hzs⟩
        simpa using Nat.succ_lt_succ this

theorem dedupGo_lt_of_dup {R : Type} (serialize : R → String) :
    ∀ (data : List R) (seen : List String),
      ¬ (data.map serialize).Nodup →
      (dedupGo serialize seen data).length < data.length := by
  intro data
  induction data with
  | nil => intro seen h; simp at h
  | cons x xs ih =>
    intro seen h
    rw [List.map_cons, List.nodup_cons] at h
    push_neg at h
    unfold dedupGo
    by_cases hin : serialize x ∈ seen
    · rw [if_pos hin]
      by_cases hmem : serialize x ∈ xs.map serialize
      · obtain ⟨z, hzxs, hzeq⟩ := List.mem_map.mp hmem
        calc (dedupGo serialize seen xs).length ≤ xs.length :=
          dedupGo_length_le serialize xs seen
        _ < (x :: xs).length := by simp
      · have hdup' : ¬ (xs.map serialize).Nodup := h hmem
        calc (dedupGo serialize seen xs).length < xs.length := ih seen hdup'
        _ < (x :: xs).length := by simp
    · rw [if_neg hin]
      by_cases hmem : serialize x ∈ xs.map serialize
      · obtain ⟨z, hzxs, hzeq⟩ := List.mem_map.mp hmem
        have := dedupGo_lt_of_seen serialize xs (serialize x :: seen)
          ⟨z, hzxs, by rw [hzeq]; exact List.mem_cons_self _ _⟩
        simpa using Nat.succ_lt_succ this
      · have hdup' : ¬ (xs.map serialize).Nodup := h hmem
        simpa using Nat.succ_lt_succ (ih (serialize x :: seen) hdup')

theorem compressBatchData_shrinks {R : Type} (serialize : R → String)
    (data : List R) (hdup : ¬ (data.map serialize).Nodup) :
    (compressBatchData serialize data).length < data.length ∧
    ∀ y ∈ compressBatchData serialize data, y ∈ data := by
  have hlen : ¬ data.length ≤ 1 := by
    intro hle
    apply hdup
    match data, hle with
    | [], _ => simp
    | [x], _ => simp
  have hlt : (dedupGo serialize [] data).length < data.length :=
    dedupGo_lt_of_dup serialize data [] hdup
  unfold compressBatchData
  rw [if_neg hlen]
  dsimp only
  rw [if_pos hlt]
  exact ⟨hlt, fun y hy => dedupGo_mem serialize data [] y hy⟩

/-- Item serializer for the concrete scenarios: JSON of a JS number holding
a small natural. -/
def natSerialize : Nat → String := fun n => toString n

/-- Default-flavoured cache configuration (`maxAge` 24h, `maxSize` 100). -/
def defaultCacheConfig : CacheConfigM := ⟨86400000, 100⟩

/-- Concrete state: an initialised manager with an empty store and one
queued batch `[5, 5, 7]` (containing a JSON-duplicate item) at index 0 for
key "k". -/
def c10State : CacheState Nat :=
  { store := []
    recovery := ⟨false, []⟩
    batchQueue := [("k", [⟨0, [5, 5, 7], 0⟩])]
    putSchedule := []
    putAttempts := 0
    quotaCleanups := 0
    isInitialized := true }

/-- The state after the deferred queue flush for key "k". -/
def c10Flushed : CacheState Nat :=
  flushBatchQueue natSerialize defaultCacheConfig c10State "k" 0

/-- Claim C10: with compression enabled (the default), a flushed batch is
deduplicated by JSON serialization before persisting — deduplication keeps
only items of the batch and strictly shrinks any batch with duplicate
serializations — so the data of the incomplete entry later returned by
`checkCache` can hold fewer items than the run computed (here 2 instead of
3); only `markComplete` replaces the entry's data with the exact full
result, duplicates included. -/
theorem compression_dedups_incomplete_entry_markComplete_exact :
    compressionEnabled = true ∧
    (∀ {R : Type} (serialize : R → String) (data : List R),
      ¬ (data.map serialize).Nodup →
        (compressBatchData serialize data).length < data.length ∧
        ∀ y ∈ compressBatchData serialize data, y ∈ data) ∧
    ((assocLookup c10Flushed.store "k").map (fun e => e.data) = some [5, 7] ∧
      (assocLookup c10Flushed.store "k").map (fun e => e.isComplete) = some false ∧
      ((checkCache defaultCacheConfig c10Flushed "k" 0).1.map (fun r => r.data))
        = some [5, 7] ∧
      ((checkCache defaultCacheConfig c10Flushed "k" 0).1.map (fun r => r.isComplete))
        = some false ∧
      (2 : Nat) < 3 ∧
      (assocLookup (markComplete natSerialize defaultCacheConfig c10Flushed "k"
          [5, 5, 7] 0).store "k").map (fun e => e.data) = some [5, 5, 7] ∧
      (assocLookup (markComplete natSerialize defaultCacheConfig c10Flushed "k"
          [5, 5, 7] 0).store "k").map (fun e => e.isComplete) = some true) :=
  ⟨rfl, fun serialize data hdup => compressBatchData_shrinks serialize data hdup,
    by decide, by decide, by decide, by decide, by decide, by decide, by decide⟩

/-- Witness for C10's universally quantified deduplication conjunct at the
concrete duplicate-holding batch `[5, 5, 7]`. -/
theorem compression_dedups_incomplete_entry_markComplete_exact_witness :
    ¬ (([5, 5, 7] : List Nat).map natSerialize).Nodup ∧
    ((compressBatchData natSerialize [5, 5, 7]).length
        < ([5, 5, 7] : List Nat).length ∧
      ∀ y ∈ compressBatchData natSerialize [5, 5, 7], y ∈ ([5, 5, 7] : List Nat)) :=
  ⟨by decide,
    compression_dedups_incomplete_entry_markComplete_exact.2.1 natSerialize
      [5, 5, 7] (by decide)⟩
